import Mathlib

/-!
Shallow embedding of the `speech-recog-for-cyborg` scripts
(`speechreco.py`, `new full impli.py`, `speaker detection.py`).

External services (the Google speech recognizer, the translator, the spaCy
NLP model, the web scraper, the clock) are modelled as explicit parameters;
the glue logic of the scripts — language-code dispatch, pipeline gating,
keyword ranking over token counts, summary prefixing, diarization labeling
and file persistence — is translated faithfully from the source.
-/

namespace SpeechRecog

/-- A file system: a map from paths to file contents. -/
abbrev FS : Type := String → Option String

/-- Python `open(path, "w")` followed by writes of `content`: a truncating
write that replaces whatever was at `path` and touches no other path. -/
def writeFile (fs : FS) (path content : String) : FS :=
  fun p => if p = path then some content else fs p

/-- A calendar date; `datetime.datetime.now()` is external, so the current
date is passed in as data. -/
structure Date where
  year : Nat
  month : Nat
  day : Nat

/-- Zero-padding to two digits, as `strftime` does for `%m` and `%d`. -/
def pad2 (n : Nat) : String :=
  if n < 10 then "0" ++ toString n else toString n

/-- Zero-padding to four digits, as `strftime` does for `%Y`. -/
def pad4 (n : Nat) : String :=
  if n < 10 then "000" ++ toString n
  else if n < 100 then "00" ++ toString n
  else if n < 1000 then "0" ++ toString n
  else toString n

/-- Embeds `get_timestamp` (all three scripts): `strftime("%Y-%m-%d")` on the
current date. -/
def get_timestamp (d : Date) : String :=
  pad4 d.year ++ "-" ++ pad2 d.month ++ "-" ++ pad2 d.day

/-- Outcome of a recognition call: the messages it prints, and either a
returned value (`Option String`, `none` for Python `None`) or an uncaught
Python exception carried as an error string. -/
structure RecogOutcome where
  printed : List String
  result : Except String (Option String)

/-- Embeds `recognize_speech_from_file` (`new full impli.py`, lines 28-58).
`google` models `recognizer.recognize_google` (`none` = the call raised
`sr.UnknownValueError`, which the function catches). In the `or-IN` branch
the source prints a placeholder but never assigns `recognized_text`, so the
final `return recognized_text` raises `UnboundLocalError`, outside the
`try` block. -/
def recognize_speech_from_file (google : String → String → Option String)
    (audio_file_path language : String) : RecogOutcome :=
  if language = "en-IN" then
    match google audio_file_path language with
    | some t => ⟨[], .ok (some t)⟩
    | none => ⟨["Unable to recognize speech"], .ok none⟩
  else if language = "hi-IN" then
    match google audio_file_path language with
    | some t => ⟨[], .ok (some t)⟩
    | none => ⟨["Unable to recognize speech"], .ok none⟩
  else if language = "or-IN" then
    ⟨["Listening for Odia speech..."], .error "UnboundLocalError"⟩
  else
    ⟨["Language not supported"], .ok none⟩

/-- Embeds `recognize_speech` (`speechreco.py`, lines 14-46): microphone variant.
Identical dispatch, preceded by the listening banner; `google` models
`recognizer.recognize_google` on the captured audio. -/
def recognize_speech (google : String → Option String)
    (language : String) : RecogOutcome :=
  let banner := "Listening for " ++ language ++ " speech..."
  if language = "en-IN" then
    match google language with
    | some t => ⟨[banner], .ok (some t)⟩
    | none => ⟨[banner, "Unable to recognize speech"], .ok none⟩
  else if language = "hi-IN" then
    match google language with
    | some t => ⟨[banner], .ok (some t)⟩
    | none => ⟨[banner, "Unable to recognize speech"], .ok none⟩
  else if language = "or-IN" then
    ⟨[banner, "Listening for Odia speech..."], .error "UnboundLocalError"⟩
  else
    ⟨[banner, "Language not supported"], .ok none⟩

/-- Keys of `collections.Counter(tokens)` in iteration order: the distinct
tokens in order of first occurrence (`seen` accumulates keys already
emitted). -/
def keysInOrderAux : List String → List String → List String
  | _, [] => []
  | seen, x :: xs =>
    if x ∈ seen then keysInOrderAux seen xs
    else x :: keysInOrderAux (x :: seen) xs

/-- Keys of `Counter(tokens)`, first-occurrence order. -/
def keysInOrder (tokens : List String) : List String :=
  keysInOrderAux [] tokens

/-- The comparison `heapq.nlargest` sorts by, with `key = word_freq.get`:
`a` ranks at least as high as `b` when its count is at least as large. -/
def freqGe (tokens : List String) (a b : String) : Prop :=
  tokens.count b ≤ tokens.count a

instance (tokens : List String) : DecidableRel (freqGe tokens) :=
  fun a b => decidable_of_iff (tokens.count b ≤ tokens.count a) Iff.rfl

instance (tokens : List String) : IsTotal String (freqGe tokens) :=
  ⟨fun a b => Nat.le_total (tokens.count b) (tokens.count a)⟩

instance (tokens : List String) : IsTrans String (freqGe tokens) :=
  ⟨fun _ _ _ h1 h2 => Nat.le_trans h2 h1⟩

/-- Embeds `extract_keywords` (`speechreco.py` 63-76, `new full impli.py` 77-90,
`speaker detection.py` 266-279): `Counter` the input, then
`nlargest(num_keywords, word_freq, key=word_freq.get)` — the Counter keys
sorted stably by descending count, truncated to `num_keywords`. In the
pipelines the argument is the preprocessed token list. -/
def extract_keywords (tokens : List String) (num_keywords : Nat) : List String :=
  (List.insertionSort (freqGe tokens) (keysInOrder tokens)).take num_keywords

/-- Embeds `generate_summary` (`speechreco.py` 78-93, `new full impli.py` 93-108,
`speaker detection.py` 281-296): split into sentences with the external NLP
model `sents`, take the first `num_sentences`, join with a single space. -/
def generate_summary (sents : String → List String) (text : String)
    (num_sentences : Nat) : String :=
  String.intercalate " " ((sents text).take num_sentences)

/-- The single call `translate_text` of `new full impli.py` (lines 155-167)
makes to the external translator: `GoogleTranslator(source='auto',
target=dest_language).translate(text)`. -/
structure TranslatorCall where
  source : String
  target : String
  text : String
deriving DecidableEq

namespace FullImpl

/-- Embeds `translate_text` (`new full impli.py`, lines 155-167): the call it
issues, with literal source `"auto"`. -/
def translate_text (text dest_language : String) : TranslatorCall :=
  ⟨"auto", dest_language, text⟩

/-- One block written by `save_minutes` (`new full impli.py`, line 152) for
the segment at zero-based index `i`. -/
def segmentBlock (i : Nat) (speech : String) : String :=
  "Segment " ++ toString (i + 1) ++ ":\n" ++ speech ++ "\n\n"

/-- The full contents `save_minutes` (`new full impli.py`, lines 140-152)
writes: one block per element of `meeting_minutes`, in `enumerate` order. -/
def save_minutes_content (meeting_minutes : List String) : String :=
  String.join (meeting_minutes.enum.map (fun p => segmentBlock p.1 p.2))

/-- Embeds `save_minutes` (`new full impli.py`, lines 140-152): truncating write of
the segment blocks to `filename ++ "-" ++ get_timestamp`. -/
def save_minutes (fs : FS) (meeting_minutes : List String)
    (filename : String) (d : Date) : FS :=
  writeFile fs (filename ++ "-" ++ get_timestamp d)
    (save_minutes_content meeting_minutes)

end FullImpl

namespace SpeakerDet

/-- Embeds `translate_text` (`speaker detection.py`, lines 338-350): the call it
issues, with literal source `"hi-EN"`. -/
def translate_text (text dest_language : String) : TranslatorCall :=
  ⟨"hi-EN", dest_language, text⟩

/-- A diarization segment as used by `speaker detection.py` (lines
239-247): `seg[2]` is the speaker id, `seg[3]` the speech text. -/
structure Segment where
  speaker : Nat
  speech : String

/-- The speaker marker `f"\nSpeaker \x7bspeaker\x7d:"` appended on a
speaker change. -/
def mkLabel (speaker : Nat) : String :=
  "\nSpeaker " ++ toString speaker ++ ":"

/-- The loop of `recognize_speech_from_file` (`speaker detection.py`, lines
236-248): walk the segments with the running `previous_speaker` (initially
Python `None`), emitting a marker before the speech whenever the speaker id
differs from it. -/
def labelAux : Option Nat → List Segment → List String
  | _, [] => []
  | prev, seg :: rest =>
    if some seg.speaker ≠ prev then
      mkLabel seg.speaker :: seg.speech :: labelAux (some seg.speaker) rest
    else
      seg.speech :: labelAux prev rest

/-- Embeds `recognize_speech_from_file` (`speaker detection.py`, lines 217-249)
after the external diarizer returned `segments`: the labeled pieces, then
`" ".join`. -/
def labelSegments (segments : List Segment) : List String :=
  labelAux none segments

/-- The string the diarizing `recognize_speech_from_file` returns. -/
def recognize_speech_from_file (segments : List Segment) : String :=
  String.intercalate " " (labelSegments segments)

/-- Embeds `save_minutes` (`speaker detection.py`, lines 325-336): truncating
write of the labeled transcript to `filename ++ "-" ++ get_timestamp`. -/
def save_minutes (fs : FS) (recognized_text : String)
    (filename : String) (d : Date) : FS :=
  writeFile fs (filename ++ "-" ++ get_timestamp d) recognized_text

end SpeakerDet

/-- The pipeline stages named by the spec. -/
inductive Stage where
  | recognition
  | translation
  | keywordExtraction
  | summarization
  | webSearch
  | fileWrite
deriving DecidableEq

/-- All six stages in execution order. -/
def allStages : List Stage :=
  [Stage.recognition, Stage.translation, Stage.keywordExtraction,
   Stage.summarization, Stage.webSearch, Stage.fileWrite]

/-- The external services a pipeline run consults. -/
structure Env where
  google : String → String → Option String
  gtrans : TranslatorCall → String
  tokenize : String → List String
  splitSents : String → List String
  web : String → List String

/-- What a pipeline run produced: the stages that executed, the
intermediate stage outputs, and the resulting file system. -/
structure RunResult where
  stages : List Stage
  keywords : List String
  summary : String
  news : List String
  fs : FS

/-- The main flow of `new full impli.py` (lines 171-198), with the language
code of the `recognize_speech_from_file` call as a parameter (the script
passes its default `'en-IN'`). Each `if` mirrors the Python truthiness
checks `if recognized_text:` and `if translated_text:`; an `or-IN` run
propagates the uncaught exception. -/
def FullImpl.pipeline (env : Env) (audio_file_path language : String)
    (fs : FS) (d : Date) : Except String RunResult :=
  match (recognize_speech_from_file env.google audio_file_path language).result with
  | .error e => .error e
  | .ok recognized_text =>
    match recognized_text with
    | none => .ok ⟨[Stage.recognition], [], "", [], fs⟩
    | some rtext =>
      if rtext = "" then .ok ⟨[Stage.recognition], [], "", [], fs⟩
      else
        let translated_text := env.gtrans (FullImpl.translate_text rtext "en")
        if translated_text = "" then
          .ok ⟨[Stage.recognition, Stage.translation], [], "", [], fs⟩
        else
          let preprocessed_text := env.tokenize translated_text
          let keywords := extract_keywords preprocessed_text 5
          let summary := generate_summary env.splitSents translated_text 3
          let news_articles := env.web translated_text
          let fs2 := FullImpl.save_minutes fs [translated_text]
            "meeting_minutes.txt" d
          .ok ⟨allStages, keywords, summary, news_articles, fs2⟩

/-- The Streamlit flow of `speaker detection.py` (lines 358-384) once a
file is uploaded and the external diarizer returned `segments`. The saved
file holds `recognized_text` (the labeled transcript), not the
translation. -/
def SpeakerDet.pipeline (env : Env) (segments : List SpeakerDet.Segment)
    (fs : FS) (d : Date) : RunResult :=
  let recognized_text := SpeakerDet.recognize_speech_from_file segments
  if recognized_text = "" then ⟨[Stage.recognition], [], "", [], fs⟩
  else
    let translated_text := env.gtrans (SpeakerDet.translate_text recognized_text "en")
    if translated_text = "" then
      ⟨[Stage.recognition, Stage.translation], [], "", [], fs⟩
    else
      let preprocessed_text := env.tokenize translated_text
      let keywords := extract_keywords preprocessed_text 5
      let summary := generate_summary env.splitSents translated_text 3
      let news_articles := env.web translated_text
      let fs2 := SpeakerDet.save_minutes fs recognized_text
        "meeting_minutes.txt" d
      ⟨allStages, keywords, summary, news_articles, fs2⟩

/-- Spec-side reading of the diarization labeling, for the refinement
claim: after the first segment, a segment is labeled exactly when its
speaker differs from the previous segment speaker (`prev`). -/
def SpeakerDet.labelSpecTail : Nat → List SpeakerDet.Segment → List String
  | _, [] => []
  | prev, seg :: rest =>
    if seg.speaker = prev then
      seg.speech :: SpeakerDet.labelSpecTail prev rest
    else
      SpeakerDet.mkLabel seg.speaker :: seg.speech
        :: SpeakerDet.labelSpecTail seg.speaker rest

/-- Spec-side reading of the diarization labeling: the first segment always
emits a label; the rest follow `labelSpecTail`. -/
def SpeakerDet.labelSpec : List SpeakerDet.Segment → List String
  | [] => []
  | seg :: rest =>
    SpeakerDet.mkLabel seg.speaker :: seg.speech
      :: SpeakerDet.labelSpecTail seg.speaker rest

/-- Spec-side reading of the minutes-file layout: one block per segment
with a running one-based index. -/
def FullImpl.blocksFrom : Nat → List String → String
  | _, [] => ""
  | i, s :: rest =>
    "Segment " ++ toString i ++ ":\n" ++ s ++ "\n\n"
      ++ FullImpl.blocksFrom (i + 1) rest

/-- The empty file system. -/
def fs0 : FS := fun _ => none

/-- A concrete run date. -/
def d0 : Date := ⟨2026, 10, 12⟩

/-- A concrete environment whose recognizer hears `"hello"`, whose
translator echoes its input, and whose NLP tokenizer returns no tokens
(every word a stop word), so keyword extraction yields the empty list. -/
def envKW : Env :=
  ⟨fun _ _ => some "hello", fun c => c.text, fun _ => [], fun t => [t], fun _ => []⟩

/-! ## Theorems -/

/-- Helper: with a concrete previous speaker, the source loop agrees with
the spec-side tail labeling. -/
theorem SpeakerDet.labelAux_eq_specTail (segs : List SpeakerDet.Segment)
    (prev : Nat) :
    SpeakerDet.labelAux (some prev) segs = SpeakerDet.labelSpecTail prev segs := by
  induction segs generalizing prev with
  | nil => rfl
  | cons seg rest ih =>
    by_cases hsp : seg.speaker = prev <;>
      simp [SpeakerDet.labelAux, SpeakerDet.labelSpecTail, hsp, ih]

/-- C1: the claim says an `or-IN` invocation prints a placeholder, returns
none and raises no error. The code prints the placeholder but never assigns
`recognized_text` in that branch, so both recognition operations raise an
uncaught `UnboundLocalError` at the `return` statement instead of
returning. -/
theorem orIN_recognition_raises (google2 : String → String → Option String)
    (google1 : String → Option String) (audio : String) :
    (recognize_speech_from_file google2 audio "or-IN").printed
        = ["Listening for Odia speech..."]
    ∧ (recognize_speech_from_file google2 audio "or-IN").result
        = Except.error "UnboundLocalError"
    ∧ (recognize_speech google1 "or-IN").result
        = Except.error "UnboundLocalError" :=
  ⟨rfl, rfl, rfl⟩

/-- C6 counterexample: the `speaker detection.py` variant of
`translate_text` calls the translation service with literal source
`"hi-EN"`, not `"auto"`. -/
theorem speaker_translate_source_not_auto :
    (SpeakerDet.translate_text "hello" "en").source = "hi-EN"
    ∧ (SpeakerDet.translate_text "hello" "en").source ≠ "auto" :=
  ⟨rfl, by decide⟩

/-- C6 amended: the `new full impli.py` pipeline translates with source
`"auto"`; the `speaker detection.py` pipeline translates with literal
source `"hi-EN"`. -/
theorem translate_sources (text dest : String) :
    (FullImpl.translate_text text dest).source = "auto"
    ∧ (SpeakerDet.translate_text text dest).source = "hi-EN" :=
  ⟨rfl, rfl⟩

/-- C7: both `save_minutes` variants write to
`filename ++ "-" ++ get_timestamp` (the date rendered `YYYY-MM-DD`) in
truncating mode: after two saves on the same day with the same filename the
path holds exactly the second run output, other paths are untouched, and
the date renders zero-padded. -/
theorem save_minutes_overwrites (fs : FS) (filename : String) (d : Date)
    (m1 m2 : List String) (t1 t2 p : String)
    (hp : p ≠ filename ++ "-" ++ get_timestamp d) :
    (FullImpl.save_minutes (FullImpl.save_minutes fs m1 filename d) m2 filename d)
        (filename ++ "-" ++ get_timestamp d)
      = some (FullImpl.save_minutes_content m2)
    ∧ (SpeakerDet.save_minutes (SpeakerDet.save_minutes fs t1 filename d) t2 filename d)
        (filename ++ "-" ++ get_timestamp d)
      = some t2
    ∧ (FullImpl.save_minutes (FullImpl.save_minutes fs m1 filename d) m2 filename d) p
      = fs p
    ∧ (SpeakerDet.save_minutes (SpeakerDet.save_minutes fs t1 filename d) t2 filename d) p
      = fs p
    ∧ get_timestamp ⟨2026, 1, 5⟩ = "2026-01-05" := by
  refine ⟨?_, ?_, ?_, ?_, rfl⟩ <;>
    simp [FullImpl.save_minutes, SpeakerDet.save_minutes, writeFile, hp]

/-- C7 witness at a concrete file system, filename, date and contents. -/
theorem save_minutes_overwrites_witness :
    ("other" ≠ "meeting_minutes.txt" ++ "-" ++ get_timestamp ⟨2026, 1, 5⟩)
    ∧ ((FullImpl.save_minutes
          (FullImpl.save_minutes (fun _ => none) ["a"] "meeting_minutes.txt" ⟨2026, 1, 5⟩)
          ["b"] "meeting_minutes.txt" ⟨2026, 1, 5⟩)
        ("meeting_minutes.txt" ++ "-" ++ get_timestamp ⟨2026, 1, 5⟩)
      = some (FullImpl.save_minutes_content ["b"])
    ∧ (SpeakerDet.save_minutes
          (SpeakerDet.save_minutes (fun _ => none) "x" "meeting_minutes.txt" ⟨2026, 1, 5⟩)
          "y" "meeting_minutes.txt" ⟨2026, 1, 5⟩)
        ("meeting_minutes.txt" ++ "-" ++ get_timestamp ⟨2026, 1, 5⟩)
      = some "y"
    ∧ (FullImpl.save_minutes
          (FullImpl.save_minutes (fun _ => none) ["a"] "meeting_minutes.txt" ⟨2026, 1, 5⟩)
          ["b"] "meeting_minutes.txt" ⟨2026, 1, 5⟩) "other"
      = (fun _ => (none : Option String)) "other"
    ∧ (SpeakerDet.save_minutes
          (SpeakerDet.save_minutes (fun _ => none) "x" "meeting_minutes.txt" ⟨2026, 1, 5⟩)
          "y" "meeting_minutes.txt" ⟨2026, 1, 5⟩) "other"
      = (fun _ => (none : Option String)) "other"
    ∧ get_timestamp ⟨2026, 1, 5⟩ = "2026-01-05") :=
  ⟨by decide,
   save_minutes_overwrites (fun _ => none) "meeting_minutes.txt" ⟨2026, 1, 5⟩
     ["a"] ["b"] "x" "y" "other" (by decide)⟩

/-- C4: when `num_sentences` is at most the sentence count, the summary is
the space-join of a list that is exactly the length-`N` prefix of the
sentence list — the first `N` sentences, in order, unaltered. -/
theorem generate_summary_first_sentences (sents : String → List String)
    (text : String) (n : Nat) (h : n ≤ (sents text).length) :
    ∃ l : List String, generate_summary sents text n = String.intercalate " " l
      ∧ l.length = n ∧ l ++ (sents text).drop n = sents text :=
  ⟨(sents text).take n, rfl,
    by rw [List.length_take]; exact Nat.min_eq_left h,
    (sents text).take_append_drop n⟩

/-- C4 witness on a three-sentence text with `N = 2`. -/
theorem generate_summary_first_sentences_witness :
    (2 ≤ ((fun _ => ["One.", "Two.", "Three."]) "t" : List String).length)
    ∧ ∃ l : List String,
        generate_summary (fun _ => ["One.", "Two.", "Three."]) "t" 2
          = String.intercalate " " l
        ∧ l.length = 2
        ∧ l ++ (((fun _ => ["One.", "Two.", "Three."]) "t" : List String).drop 2)
            = (fun _ => ["One.", "Two.", "Three."]) "t" :=
  ⟨by decide, generate_summary_first_sentences (fun _ => ["One.", "Two.", "Three."]) "t" 2 (by decide)⟩

/-- C9: when `num_sentences` exceeds the sentence count, the slice clamps:
the summary is all sentences joined with a single space, and no failure
occurs. -/
theorem generate_summary_clamps (sents : String → List String)
    (text : String) (n : Nat) (h : (sents text).length ≤ n) :
    generate_summary sents text n = String.intercalate " " (sents text) := by
  unfold generate_summary
  rw [List.take_of_length_le h]

/-- C9 witness on a two-sentence text with `N = 5`. -/
theorem generate_summary_clamps_witness :
    (((fun _ => ["One.", "Two."]) "t" : List String).length ≤ 5)
    ∧ generate_summary (fun _ => ["One.", "Two."]) "t" 5
        = String.intercalate " " ((fun _ => ["One.", "Two."]) "t") :=
  ⟨by decide, generate_summary_clamps (fun _ => ["One.", "Two."]) "t" 5 (by decide)⟩

/-- C3: the labeled output carries a speaker marker exactly at the first
segment and at each segment whose speaker differs from the previous one
(refinement against the spec-side labeling), and on speaker sequence
`[A, A, B, B, A]` exactly three markers appear, before segments 1, 3
and 5. -/
theorem diarization_labels_at_speaker_changes :
    (∀ segs : List SpeakerDet.Segment,
        SpeakerDet.labelSegments segs = SpeakerDet.labelSpec segs)
    ∧ SpeakerDet.labelSegments
        [⟨0, "s1"⟩, ⟨0, "s2"⟩, ⟨1, "s3"⟩, ⟨1, "s4"⟩, ⟨0, "s5"⟩]
      = ["\nSpeaker 0:", "s1", "s2", "\nSpeaker 1:", "s3", "s4",
         "\nSpeaker 0:", "s5"] := by
  constructor
  · intro segs
    cases segs with
    | nil => rfl
    | cons seg rest =>
      simp [SpeakerDet.labelSegments, SpeakerDet.labelAux, SpeakerDet.labelSpec,
        SpeakerDet.labelAux_eq_specTail]
  · rfl

/-- C8: a language code outside `{en-IN, hi-IN, or-IN}` makes both
recognition operations return Python `None` (no exception), and the
`new full impli.py` pipeline then stops after the recognition stage,
leaving the file system untouched. -/
theorem unsupported_language_shortcircuits (lang : String)
    (h : lang ∉ (["en-IN", "hi-IN", "or-IN"] : List String))
    (google2 : String → String → Option String)
    (google1 : String → Option String) (audio : String)
    (env : Env) (fs : FS) (d : Date) :
    (recognize_speech_from_file google2 audio lang).result = Except.ok none
    ∧ (recognize_speech google1 lang).result = Except.ok none
    ∧ FullImpl.pipeline env audio lang fs d
        = Except.ok ⟨[Stage.recognition], [], "", [], fs⟩ := by
  simp only [List.mem_cons, List.not_mem_nil, or_false, not_or] at h
  obtain ⟨h1, h2, h3⟩ := h
  refine ⟨?_, ?_, ?_⟩ <;>
    simp [recognize_speech_from_file, recognize_speech, FullImpl.pipeline,
      h1, h2, h3]

/-- C8 witness at the unsupported code `fr-FR`. -/
theorem unsupported_language_shortcircuits_witness :
    ("fr-FR" ∉ (["en-IN", "hi-IN", "or-IN"] : List String))
    ∧ ((recognize_speech_from_file envKW.google "audio.wav" "fr-FR").result
        = Except.ok none
    ∧ (recognize_speech (fun _ => some "hello") "fr-FR").result = Except.ok none
    ∧ FullImpl.pipeline envKW "audio.wav" "fr-FR" fs0 d0
        = Except.ok ⟨[Stage.recognition], [], "", [], fs0⟩) :=
  ⟨by decide,
   unsupported_language_shortcircuits "fr-FR" (by decide) envKW.google
     (fun _ => some "hello") "audio.wav" envKW fs0 d0⟩

/-- Helper: `String.join` distributes over cons. -/
theorem join_cons (s : String) (l : List String) :
    String.join (s :: l) = s ++ String.join l := by
  cases s
  simp [String.join_eq, String.append]
  rfl

/-- Helper: the `enumerate`-driven write loop of the list-variant
`save_minutes` produces the indexed blocks, for any starting index. -/
theorem save_blocks_from (l : List String) (n : Nat) :
    String.join ((List.enumFrom n l).map (fun p => FullImpl.segmentBlock p.1 p.2))
      = FullImpl.blocksFrom (n + 1) l := by
  induction l generalizing n with
  | nil => rfl
  | cons s rest ih =>
    have hstep : List.enumFrom n (s :: rest) = (n, s) :: List.enumFrom (n + 1) rest := rfl
    rw [hstep, List.map_cons, join_cons, ih]
    simp [FullImpl.segmentBlock, FullImpl.blocksFrom, String.append_assoc]

/-- C10: for a non-empty segment list, the list-variant `save_minutes`
writes, at `filename ++ "-" ++ date`, exactly the concatenation of one
block per segment in order — `Segment i:` with one-based `i`, a newline,
the unmodified segment text, and a blank line. -/
theorem save_minutes_writes_blocks (fs : FS) (meeting_minutes : List String)
    (filename : String) (d : Date) (h : meeting_minutes ≠ []) :
    (FullImpl.save_minutes fs meeting_minutes filename d)
        (filename ++ "-" ++ get_timestamp d)
      = some (FullImpl.blocksFrom 1 meeting_minutes) := by
  have hc : FullImpl.save_minutes_content meeting_minutes
      = FullImpl.blocksFrom 1 meeting_minutes := by
    have := save_blocks_from meeting_minutes 0
    simpa [FullImpl.save_minutes_content, List.enum] using this
  simp [FullImpl.save_minutes, writeFile, hc]

/-- C10 witness on the two-segment list `["hello", "world"]`. -/
theorem save_minutes_writes_blocks_witness :
    ((["hello", "world"] : List String) ≠ [])
    ∧ (FullImpl.save_minutes fs0 ["hello", "world"] "meeting_minutes.txt" d0)
        ("meeting_minutes.txt" ++ "-" ++ get_timestamp d0)
      = some (FullImpl.blocksFrom 1 ["hello", "world"]) :=
  ⟨by decide,
   save_minutes_writes_blocks fs0 ["hello", "world"] "meeting_minutes.txt" d0
     (by decide)⟩

/-- Helper: every key produced by the `Counter`-key walk occurs in the
walked list. -/
theorem mem_of_mem_keysInOrderAux :
    ∀ (l seen : List String) (x : String), x ∈ keysInOrderAux seen l → x ∈ l := by
  intro l
  induction l with
  | nil => intro seen x hx; simp [keysInOrderAux] at hx
  | cons y ys ih =>
    intro seen x hx
    by_cases hy : y ∈ seen
    · simp only [keysInOrderAux, if_pos hy] at hx
      exact List.mem_cons_of_mem y (ih seen x hx)
    · simp only [keysInOrderAux, if_neg hy, List.mem_cons] at hx
      rcases hx with h | h
      · simp [h]
      · exact List.mem_cons_of_mem y (ih (y :: seen) x h)

/-- Helper: the `Counter`-key walk never emits a key it has already
seen. -/
theorem not_mem_seen_of_keysInOrderAux :
    ∀ (l seen : List String) (x : String), x ∈ keysInOrderAux seen l → x ∉ seen := by
  intro l
  induction l with
  | nil => intro seen x hx; simp [keysInOrderAux] at hx
  | cons y ys ih =>
    intro seen x hx
    by_cases hy : y ∈ seen
    · simp only [keysInOrderAux, if_pos hy] at hx
      exact ih seen x hx
    · simp only [keysInOrderAux, if_neg hy, List.mem_cons] at hx
      rcases hx with h | h
      · subst h; exact hy
      · have hnot := ih (y :: seen) x h
        intro hxs
        exact hnot (List.mem_cons_of_mem y hxs)

/-- Helper: the `Counter` keys are pairwise distinct. -/
theorem keysInOrderAux_nodup :
    ∀ (l seen : List String), (keysInOrderAux seen l).Nodup := by
  intro l
  induction l with
  | nil => intro seen; simp [keysInOrderAux]
  | cons y ys ih =>
    intro seen
    by_cases hy : y ∈ seen
    · simp only [keysInOrderAux, if_pos hy]
      exact ih seen
    · simp only [keysInOrderAux, if_neg hy, List.nodup_cons]
      refine ⟨fun hmem => ?_, ih (y :: seen)⟩
      exact (not_mem_seen_of_keysInOrderAux ys (y :: seen) y hmem)
        (List.mem_cons_self y seen)

/-- Helper: every unseen element of the walked list shows up among the
`Counter` keys. -/
theorem mem_keysInOrderAux_of_mem :
    ∀ (l seen : List String) (x : String),
      x ∈ l → x ∉ seen → x ∈ keysInOrderAux seen l := by
  intro l
  induction l with
  | nil => intro seen x hx; simp at hx
  | cons y ys ih =>
    intro seen x hx hxs
    by_cases hy : y ∈ seen
    · rcases List.mem_cons.mp hx with h | h
      · subst h; exact absurd hy hxs
      · simp only [keysInOrderAux, if_pos hy]
        exact ih seen x h hxs
    · simp only [keysInOrderAux, if_neg hy, List.mem_cons]
      rcases List.mem_cons.mp hx with h | h
      · exact Or.inl h
      · by_cases hxy : x = y
        · exact Or.inl hxy
        · refine Or.inr (ih (y :: seen) x h ?_)
          simp only [List.mem_cons, not_or]
          exact ⟨hxy, hxs⟩

/-- C5: `extract_keywords` on a token list returns at most `k` elements,
pairwise distinct, each occurring in the input, sorted by non-increasing
raw count, and every input token left out counts no more than any token
kept. -/
theorem extract_keywords_spec (tokens : List String) (k : Nat) :
    (extract_keywords tokens k).length ≤ k
    ∧ (extract_keywords tokens k).Nodup
    ∧ (∀ x ∈ extract_keywords tokens k, x ∈ tokens)
    ∧ List.Sorted (freqGe tokens) (extract_keywords tokens k)
    ∧ (∀ y ∈ tokens, y ∉ extract_keywords tokens k →
        ∀ x ∈ extract_keywords tokens k,
          tokens.count y ≤ tokens.count x) := by
  have hek : extract_keywords tokens k
      = (List.insertionSort (freqGe tokens) (keysInOrder tokens)).take k := rfl
  have hperm : (List.insertionSort (freqGe tokens) (keysInOrder tokens)).Perm
      (keysInOrder tokens) := List.perm_insertionSort _ _
  have hsort : List.Sorted (freqGe tokens)
      (List.insertionSort (freqGe tokens) (keysInOrder tokens)) :=
    List.sorted_insertionSort _ _
  have hnodup : (keysInOrder tokens).Nodup := keysInOrderAux_nodup tokens []
  rw [hek]
  refine ⟨?_, ?_, ?_, ?_, ?_⟩
  · rw [List.length_take]
    exact min_le_left _ _
  · exact List.Nodup.sublist (List.take_sublist k _) (hperm.symm.nodup hnodup)
  · intro x hx
    have hx2 : x ∈ List.insertionSort (freqGe tokens) (keysInOrder tokens) :=
      List.take_subset k _ hx
    have hx3 : x ∈ keysInOrder tokens := hperm.mem_iff.mp hx2
    exact mem_of_mem_keysInOrderAux tokens [] x hx3
  · exact List.Pairwise.sublist (List.take_sublist k _) hsort
  · intro y hy hynot x hx
    have hykeys : y ∈ keysInOrder tokens :=
      mem_keysInOrderAux_of_mem tokens [] y hy (by simp)
    have hysorted : y ∈ List.insertionSort (freqGe tokens) (keysInOrder tokens) :=
      hperm.mem_iff.mpr hykeys
    have hsplit := List.take_append_drop k
      (List.insertionSort (freqGe tokens) (keysInOrder tokens))
    have hpair : List.Pairwise (freqGe tokens)
        (List.insertionSort (freqGe tokens) (keysInOrder tokens)) := hsort
    rw [← hsplit] at hpair hysorted
    rcases List.mem_append.mp hysorted with hyt | hyd
    · exact absurd hyt hynot
    · exact (List.pairwise_append.mp hpair).2.2 x hx y hyd

/-- C5 witness on the token list `[b, a, b, c, b, a]` with `k = 2`. -/
theorem extract_keywords_spec_witness :
    (extract_keywords ["b", "a", "b", "c", "b", "a"] 2).length ≤ 2
    ∧ (extract_keywords ["b", "a", "b", "c", "b", "a"] 2).Nodup
    ∧ (∀ x ∈ extract_keywords ["b", "a", "b", "c", "b", "a"] 2,
        x ∈ (["b", "a", "b", "c", "b", "a"] : List String))
    ∧ List.Sorted (freqGe ["b", "a", "b", "c", "b", "a"])
        (extract_keywords ["b", "a", "b", "c", "b", "a"] 2)
    ∧ (∀ y ∈ (["b", "a", "b", "c", "b", "a"] : List String),
        y ∉ extract_keywords ["b", "a", "b", "c", "b", "a"] 2 →
        ∀ x ∈ extract_keywords ["b", "a", "b", "c", "b", "a"] 2,
          (["b", "a", "b", "c", "b", "a"] : List String).count y
            ≤ (["b", "a", "b", "c", "b", "a"] : List String).count x) :=
  extract_keywords_spec ["b", "a", "b", "c", "b", "a"] 2

/-- C2 counterexample: in a run where recognition and translation succeed
but the tokenizer yields no tokens, keyword extraction returns the empty
list, yet summarization, web search and the file write all still execute —
the empty keyword result does not short-circuit the pipeline, and the file
is written afterwards. -/
theorem pipeline_runs_after_empty_keywords :
    (FullImpl.pipeline envKW "audio.wav" "en-IN" fs0 d0).map
        (fun r => (r.stages, r.keywords))
      = Except.ok (allStages, ([] : List String))
    ∧ (FullImpl.pipeline envKW "audio.wav" "en-IN" fs0 d0).map
        (fun r => r.fs ("meeting_minutes.txt" ++ "-" ++ get_timestamp d0))
      = Except.ok (some (FullImpl.save_minutes_content ["hello"])) :=
  ⟨rfl, rfl⟩

/-- C2 amended: an empty or `None` result from the recognition or
translation stage stops both pipeline variants before any further stage
and leaves the file system untouched; the outputs of keyword extraction,
summarization and web search are never tested and do not gate later
stages. -/
theorem pipeline_shortcircuit_recognition_translation (env : Env)
    (audio : String) (segs : List SpeakerDet.Segment) (fs : FS) (d : Date) :
    (env.google audio "en-IN" = none →
        FullImpl.pipeline env audio "en-IN" fs d
          = Except.ok ⟨[Stage.recognition], [], "", [], fs⟩)
    ∧ (env.google audio "en-IN" = some "" →
        FullImpl.pipeline env audio "en-IN" fs d
          = Except.ok ⟨[Stage.recognition], [], "", [], fs⟩)
    ∧ (∀ t, env.google audio "en-IN" = some t → t ≠ "" →
        env.gtrans (FullImpl.translate_text t "en") = "" →
        FullImpl.pipeline env audio "en-IN" fs d
          = Except.ok ⟨[Stage.recognition, Stage.translation], [], "", [], fs⟩)
    ∧ (SpeakerDet.recognize_speech_from_file segs = "" →
        SpeakerDet.pipeline env segs fs d = ⟨[Stage.recognition], [], "", [], fs⟩)
    ∧ (∀ rt, SpeakerDet.recognize_speech_from_file segs = rt → rt ≠ "" →
        env.gtrans (SpeakerDet.translate_text rt "en") = "" →
        SpeakerDet.pipeline env segs fs d
          = ⟨[Stage.recognition, Stage.translation], [], "", [], fs⟩) := by
  refine ⟨?_, ?_, ?_, ?_, ?_⟩
  · intro h
    simp [FullImpl.pipeline, recognize_speech_from_file, h]
  · intro h
    simp [FullImpl.pipeline, recognize_speech_from_file, h]
  · intro t h ht hg
    simp [FullImpl.pipeline, recognize_speech_from_file, FullImpl.translate_text,
      h, ht, hg]
    intro hcontra
    exact absurd hg hcontra
  · intro hr
    simp [SpeakerDet.pipeline, hr]
  · intro rt hr hrt hg
    simp [SpeakerDet.pipeline, SpeakerDet.translate_text, hr, hrt, hg]
    intro hcontra
    exact absurd hg hcontra

/-- C2 amended witness: a recognizer hearing `"x"` and a translator
returning the empty string stop the full pipeline after translation; an
empty diarization stops the speaker pipeline after recognition. -/
theorem pipeline_shortcircuit_witness :
    ((Env.mk (fun _ _ => some "x") (fun _ => "") (fun _ => []) (fun _ => [])
        (fun _ => [])).google "a.wav" "en-IN" = none →
      FullImpl.pipeline
          (Env.mk (fun _ _ => some "x") (fun _ => "") (fun _ => []) (fun _ => [])
            (fun _ => [])) "a.wav" "en-IN" fs0 d0
        = Except.ok ⟨[Stage.recognition], [], "", [], fs0⟩)
    ∧ ((Env.mk (fun _ _ => some "x") (fun _ => "") (fun _ => []) (fun _ => [])
        (fun _ => [])).google "a.wav" "en-IN" = some "" →
      FullImpl.pipeline
          (Env.mk (fun _ _ => some "x") (fun _ => "") (fun _ => []) (fun _ => [])
            (fun _ => [])) "a.wav" "en-IN" fs0 d0
        = Except.ok ⟨[Stage.recognition], [], "", [], fs0⟩)
    ∧ (∀ t, (Env.mk (fun _ _ => some "x") (fun _ => "") (fun _ => []) (fun _ => [])
        (fun _ => [])).google "a.wav" "en-IN" = some t → t ≠ "" →
      (Env.mk (fun _ _ => some "x") (fun _ => "") (fun _ => []) (fun _ => [])
        (fun _ => [])).gtrans (FullImpl.translate_text t "en") = "" →
      FullImpl.pipeline
          (Env.mk (fun _ _ => some "x") (fun _ => "") (fun _ => []) (fun _ => [])
            (fun _ => [])) "a.wav" "en-IN" fs0 d0
        = Except.ok ⟨[Stage.recognition, Stage.translation], [], "", [], fs0⟩)
    ∧ (SpeakerDet.recognize_speech_from_file [] = "" →
      SpeakerDet.pipeline
          (Env.mk (fun _ _ => some "x") (fun _ => "") (fun _ => []) (fun _ => [])
            (fun _ => [])) [] fs0 d0
        = ⟨[Stage.recognition], [], "", [], fs0⟩)
    ∧ (∀ rt, SpeakerDet.recognize_speech_from_file [] = rt → rt ≠ "" →
      (Env.mk (fun _ _ => some "x") (fun _ => "") (fun _ => []) (fun _ => [])
        (fun _ => [])).gtrans (SpeakerDet.translate_text rt "en") = "" →
      SpeakerDet.pipeline
          (Env.mk (fun _ _ => some "x") (fun _ => "") (fun _ => []) (fun _ => [])
            (fun _ => [])) [] fs0 d0
        = ⟨[Stage.recognition, Stage.translation], [], "", [], fs0⟩) :=
  pipeline_shortcircuit_recognition_translation
    (Env.mk (fun _ _ => some "x") (fun _ => "") (fun _ => []) (fun _ => [])
      (fun _ => [])) "a.wav" [] fs0 d0

end SpeechRecog
